import Mathlib

/-
Verification development for the GigaChat chat client
(src/js/chat.js, src/js/api.js).

The definitions below are a shallow embedding of the client's
conversation-session logic: the mutable module state of chat.js becomes an
explicit state record, each event handler becomes a state-transforming
function, and the `await` points of `openConversation` become atomic
actions so that interleavings of two invocations can be analysed.

Host APIs that the source calls (ECMAScript `Date` parsing,
`JSON.parse`, `String.prototype.includes`, `toLowerCase`) are modelled by
executable Lean functions; each such model carries a doc comment naming
the API it stands for and the simplifications taken.
-/

namespace GigaChat

/-! ## Data model (spec.md section 3, chat.js state) -/

/-- A chat message as stored in the `messages` array of chat.js.
History messages come from the server and may omit fields; live messages
are built in `connectWebSocket.onMessage` with every field present.
Fields that JavaScript may leave `null`/`undefined` are `Option`s. -/
structure Msg where
  id : String
  conversation_id : Option String
  sender_id : Option String
  content : Option String
  created_at : Option String
deriving DecidableEq, Repr

/-- An inbound channel payload `{sender_id, content, created_at}` as
delivered to `connectWebSocket.onMessage` (chat.js line 294). -/
structure Payload where
  sender_id : Option String
  content : Option String
  created_at : Option String
deriving DecidableEq, Repr

/-! ## Model of the host ECMAScript Date API

chat.js lines 875-921 call `new Date(isoString)`, `isNaN(date.getTime())`
and `date.toDateString()`.  The model below parses ISO-8601 date-time
strings `YYYY-MM-DD` optionally followed by `THH:MM`, `:SS`, a fractional
part and a zone designator, and yields the calendar day (as a day count in
the proleptic Gregorian calendar) and the minutes past midnight.
Simplifications, stated once here: the local timezone is taken to be UTC
(zone offsets are syntax-checked but ignored), the day of month is only
bounded by 31, and no non-ISO `Date` input formats are modelled. -/

/-- Reads exactly `k` decimal digits, accumulating their value. -/
def readDigitsAux : Nat → Nat → List Char → Option (Nat × List Char)
  | 0, acc, cs => some (acc, cs)
  | k + 1, acc, cs =>
    match cs with
    | [] => none
    | c :: rest =>
      if c.isDigit then readDigitsAux k (acc * 10 + (c.toNat - 48)) rest
      else none

/-- Consumes one expected character. -/
def expectChar (c : Char) : List Char → Option (List Char)
  | [] => none
  | d :: rest => if d = c then some rest else none

/-- Optional fractional-seconds part: either no dot, or a dot followed by
at least one digit (further digits consumed). -/
def parseFrac : List Char → Option (List Char)
  | '.' :: c :: rest =>
    if c.isDigit then some (rest.dropWhile Char.isDigit) else none
  | cs => some cs

/-- Optional seconds part `:SS` with optional fraction. -/
def parseSecondsOpt (cs : List Char) : Option (List Char) :=
  match cs with
  | ':' :: rest =>
    match readDigitsAux 2 0 rest with
    | none => none
    | some (s, rest2) => if s ≤ 59 then parseFrac rest2 else none
  | _ => some cs

/-- Optional zone designator: end of input, `Z`, or `±HH:MM`; must consume
the rest of the string. -/
def parseZoneOpt (cs : List Char) : Option Unit :=
  match cs with
  | [] => some ()
  | ['Z'] => some ()
  | c :: rest =>
    if c = '+' ∨ c = '-' then
      match readDigitsAux 2 0 rest with
      | none => none
      | some (h, rest2) =>
        match expectChar ':' rest2 with
        | none => none
        | some rest3 =>
          match readDigitsAux 2 0 rest3 with
          | none => none
          | some (m, rest4) =>
            if h ≤ 23 ∧ m ≤ 59 ∧ rest4 = [] then some () else none
    else none

/-- Day count of a Gregorian calendar date (days since 1970-01-01,
negative before); the standard civil-calendar day-count computation. -/
def daysFromCivil (y m d : Int) : Int :=
  let y2 : Int := if m ≤ 2 then y - 1 else y
  let era : Int := (if 0 ≤ y2 then y2 else y2 - 399) / 400
  let yoe : Int := y2 - era * 400
  let mp : Int := (m + 9) % 12
  let doy : Int := (153 * mp + 2) / 5 + d - 1
  let doe : Int := yoe * 365 + yoe / 4 - yoe / 100 + doy
  era * 146097 + doe - 719468

/-- Models `new Date(s)` on an ISO string: `none` when the host `Date`
would be an Invalid Date, otherwise the local calendar day code and the
minutes past midnight. -/
def jsParseDateTime (s : String) : Option (Int × Nat) := do
  let cs := s.data
  let (y, cs) ← readDigitsAux 4 0 cs
  let cs ← expectChar '-' cs
  let (mo, cs) ← readDigitsAux 2 0 cs
  let cs ← expectChar '-' cs
  let (d, cs) ← readDigitsAux 2 0 cs
  if 1 ≤ mo ∧ mo ≤ 12 ∧ 1 ≤ d ∧ d ≤ 31 then
    match cs with
    | [] => some (daysFromCivil y mo d, 0)
    | 'T' :: rest => do
      let (h, rest) ← readDigitsAux 2 0 rest
      let rest ← expectChar ':' rest
      let (mi, rest) ← readDigitsAux 2 0 rest
      if h ≤ 23 ∧ mi ≤ 59 then do
        let rest ← parseSecondsOpt rest
        let _ ← parseZoneOpt rest
        some (daysFromCivil y mo d, h * 60 + mi)
      else none
    | _ => none
  else none

/-- The local calendar day of a parsed timestamp. -/
def jsDateParse (s : String) : Option Int := (jsParseDateTime s).map Prod.fst

/-- Codomain of the host `Date.prototype.toDateString`: that method maps
every Invalid Date to the one string "Invalid Date" and is injective on
local calendar days, so its image is modelled by this type, preserving
exactly the equalities the source compares. -/
inductive DateString where
  | invalidDate
  | localDay (code : Int)
deriving DecidableEq, Repr

/-- Models `new Date(s).toDateString()` (used by chat.js `isDifferentDay`
and `formatDate`). -/
def toDateStringM (s : String) : DateString :=
  match jsDateParse s with
  | some d => DateString.localDay d
  | none => DateString.invalidDate

/-! ## Rendering helpers (chat.js lines 875-921) -/

/-- chat.js `formatTime` (lines 875-887): empty string on a missing/empty
argument or an invalid date, otherwise a locale time string (modelled as
"h:m" from the parsed minutes). -/
def formatTime (isoString : Option String) : String :=
  match isoString with
  | none => ""
  | some s =>
    if s = "" then ""
    else
      match jsParseDateTime s with
      | none => ""
      | some (_, mins) => toString (mins / 60) ++ ":" ++ toString (mins % 60)

/-- chat.js `formatDate` (lines 889-910): empty string on a missing/empty
argument or an invalid date; "Today"/"Yesterday" relative to the current
local day `today`, otherwise a locale date string (modelled from the day
code). -/
def formatDate (today : Int) (isoString : Option String) : String :=
  match isoString with
  | none => ""
  | some s =>
    if s = "" then ""
    else
      match jsParseDateTime s with
      | none => ""
      | some (d, _) =>
        if d = today then "Today"
        else if d = today - 1 then "Yesterday"
        else "Date " ++ toString d

/-- chat.js `isDifferentDay` (lines 912-921): false when either argument
is missing or the empty string, otherwise compares the two
`toDateString()` values.  Note the source has no `isNaN` guard here: a
non-empty unparseable string compares as "Invalid Date". -/
def isDifferentDay (iso1 iso2 : Option String) : Bool :=
  match iso1, iso2 with
  | some s1, some s2 =>
    if s1 = "" ∨ s2 = "" then false
    else decide (toDateStringM s1 ≠ toDateStringM s2)
  | _, _ => false

/-! ## Date separators in renderMessages (chat.js lines 344-392)

`renderMessages` walks `messages` and emits a date-separator div before
message 0 and before every message `i > 0` with
`isDifferentDay(messages[i-1].created_at, messages[i].created_at)`.
`separatorFlags` records, per message, whether a separator precedes it. -/

/-- Separator flags for the non-initial messages, given the previous one. -/
def separatorFlagsTail (prev : Msg) : List Msg → List Bool
  | [] => []
  | m :: rest =>
    isDifferentDay prev.created_at m.created_at :: separatorFlagsTail m rest

/-- Per-message separator flags of `renderMessages`. -/
def separatorFlags : List Msg → List Bool
  | [] => []
  | m :: rest => true :: separatorFlagsTail m rest

/-- Number of date-separator markers rendered for a message sequence. -/
def countSeparators (msgs : List Msg) : Nat := (separatorFlags msgs).count true

/-- The local calendar day a message's timestamp parses to, if any. -/
def msgDay (m : Msg) : Option Int :=
  match m.created_at with
  | some s => jsDateParse s
  | none => none

/-! ## Inbound channel events (chat.js `connectWebSocket.onMessage`,
lines 294-308)

The handler closure captures `conversationId` (the parameter of
`connectWebSocket`).  `crypto.randomUUID()` and `new Date().toISOString()`
are environment inputs, so each event record carries the fresh id and the
"now" string the environment would supply at processing time. -/

/-- One inbound channel delivery together with its environment inputs. -/
structure InboundEvent where
  data : Option Payload
  freshId : String
  now : String
deriving DecidableEq, Repr

/-- chat.js `onMessage(data)`: drops the event when `data` is falsy or
`data.content` is falsy (missing or the empty string), otherwise pushes a
new message built from the payload onto the tail of `messages`. -/
def onMessageStep (conversationId : String) (msgs : List Msg)
    (e : InboundEvent) : List Msg :=
  match e.data with
  | none => msgs
  | some d =>
    match d.content with
    | none => msgs
    | some c =>
      if c = "" then msgs
      else
        msgs ++ [{ id := e.freshId,
                   conversation_id := some conversationId,
                   sender_id := d.sender_id,
                   content := some c,
                   created_at := some (match d.created_at with
                     | some t => if t = "" then e.now else t
                     | none => e.now) }]

/-- Processing a finite sequence of inbound events in delivery order. -/
def processEvents (conversationId : String) (msgs : List Msg)
    (evs : List InboundEvent) : List Msg :=
  evs.foldl (onMessageStep conversationId) msgs

/-- The message a single inbound event contributes, if any: the
specification-side description of the append in `onMessage`. -/
def eventMsg (conversationId : String) (e : InboundEvent) : Option Msg :=
  match e.data with
  | none => none
  | some d =>
    match d.content with
    | none => none
    | some c =>
      if c = "" then none
      else
        some { id := e.freshId,
               conversation_id := some conversationId,
               sender_id := d.sender_id,
               content := some c,
               created_at := some (match d.created_at with
                 | some t => if t = "" then e.now else t
                 | none => e.now) }

/-- Whether an inbound event carries non-empty content (the events that
survive the `!data || !data.content` guard). -/
def hasContent (e : InboundEvent) : Bool :=
  match e.data with
  | none => false
  | some d =>
    match d.content with
    | none => false
    | some c => decide (c ≠ "")

/-! ## Composer (chat.js `sendMessage`, lines 409-422)

`sendMessage` reads the textarea value (the draft), the module-level
`wsConnection` (whether a channel wrapper is currently set) and does not
touch `messages`.  Its observable outcome is the content handed to
`wsConnection.send`, the new draft, and the untouched message list. -/

/-- chat.js `MAX_MESSAGE_LENGTH` (line 29). -/
def MAX_MESSAGE_LENGTH : Nat := 500

/-- Whitespace for the purposes of `String.prototype.trim`. -/
def isWsChar (c : Char) : Bool :=
  c = ' ' ∨ c = '\t' ∨ c = '\n' ∨ c = '\r'

/-- Models `String.prototype.trim`: removes leading and trailing
whitespace. -/
def jsTrim (s : String) : String :=
  String.mk (((s.data.dropWhile isWsChar).reverse.dropWhile isWsChar).reverse)

/-- Observable outcome of one `sendMessage` call. -/
structure SendOutcome where
  sentFrame : Option String
  draft : String
  messages : List Msg
deriving DecidableEq, Repr

/-- chat.js `sendMessage` (lines 409-422): returns early when no channel
wrapper is set; trims the draft; returns early when the trimmed content is
empty or longer than `MAX_MESSAGE_LENGTH`; otherwise sends the trimmed
content and clears the textarea.  (The guard `!composerTextarea` is a
missing-DOM-node case outside this model.) -/
def sendMessage (wsConnection : Bool) (draft : String)
    (messages : List Msg) : SendOutcome :=
  if wsConnection = false then ⟨none, draft, messages⟩
  else
    let content := jsTrim draft
    if content = "" ∨ content.length > MAX_MESSAGE_LENGTH then
      ⟨none, draft, messages⟩
    else ⟨some content, "", messages⟩

/-! ## Friend list filtering (chat.js `renderFriendList`, lines 135-144) -/

/-- A friend record as cached from `GET /friends`. -/
structure FriendInfo where
  friend_id : String
  username : Option String
  display_name : Option String
deriving DecidableEq, Repr

/-- Models `String.prototype.toLowerCase` (ASCII case folding). -/
def toLowerStr (s : String) : String := s.map Char.toLower

/-- Whether `pat` occurs at the head of `l`. -/
def leadsWith : List Char → List Char → Bool
  | [], _ => true
  | _ :: _, [] => false
  | a :: as, b :: bs => a = b && leadsWith as bs

/-- Whether `pat` occurs contiguously anywhere in `l`. -/
def occursIn (pat : List Char) : List Char → Bool
  | [] => leadsWith pat []
  | l@(_ :: rest) => leadsWith pat l || occursIn pat rest

/-- Models `String.prototype.includes`. -/
def containsSub (s pat : String) : Bool := occursIn pat.data s.data

/-- The match predicate of `renderFriendList`: the query occurs
case-insensitively in the username or the display name (missing fields
read as `""` via the `|| ""` defaults). -/
def friendMatches (q : String) (f : FriendInfo) : Bool :=
  containsSub (toLowerStr (f.username.getD "")) (toLowerStr q) ||
  containsSub (toLowerStr (f.display_name.getD "")) (toLowerStr q)

/-- chat.js lines 138-144: with a falsy (empty) filter string the friend
list is used as is; otherwise it is filtered by `friendMatches`. -/
def filterFriends (friends : List FriendInfo) (filter : String) :
    List FriendInfo :=
  if filter = "" then friends
  else friends.filter (friendMatches filter)

/-! ## Model of the host `JSON.parse` and the ChatSocket message listener
(api.js `ChatSocket.connect`, lines 298-312)

The listener tries `JSON.parse(event.data)`; on success it forwards the
parsed value to `onMessage`, on a parse error it forwards the degraded
object with the raw frame text as `content` and null
`sender_id`/`created_at`.  `JSON.parse` is modelled by a recursive-descent
reader over the frame's characters; simplifications, stated once: numbers
are read as optionally signed decimal integers (no fraction/exponent) and
string escapes cover the single-character escapes but not `\u` sequences.
Neither simplification affects whether a non-JSON frame such as "oops" is
rejected. -/

/-- A JSON value as produced by the modelled `JSON.parse`. -/
inductive Jvalue where
  | null
  | bool (b : Bool)
  | num (n : Int)
  | str (s : String)
  | arr (elems : List Jvalue)
  | obj (fields : List (String × Jvalue))

/-- Skips JSON whitespace. -/
def skipWs (cs : List Char) : List Char :=
  cs.dropWhile (fun c => c = ' ' ∨ c = '\t' ∨ c = '\n' ∨ c = '\r')

/-- Reads a nonempty run of decimal digits. -/
def readNatLit : List Char → Option (Nat × List Char)
  | [] => none
  | c :: rest =>
    if c.isDigit then
      let digits := rest.takeWhile Char.isDigit
      let value := (c :: digits).foldl (fun a d => a * 10 + (d.toNat - 48)) 0
      some (value, rest.dropWhile Char.isDigit)
    else none

/-- Reads the body of a JSON string literal after the opening quote. -/
def readStringLit : Nat → List Char → Option (String × List Char)
  | 0, _ => none
  | _ + 1, [] => none
  | fuel + 1, c :: rest =>
    if c = '"' then some ("", rest)
    else if c = '\\' then
      match rest with
      | [] => none
      | e :: rest2 =>
        let unescaped : Char :=
          if e = 'n' then '\n'
          else if e = 't' then '\t'
          else if e = 'r' then '\r'
          else e
        match readStringLit fuel rest2 with
        | some (s, rest3) => some (String.mk (unescaped :: s.data), rest3)
        | none => none
    else
      match readStringLit fuel rest with
      | some (s, rest2) => some (String.mk (c :: s.data), rest2)
      | none => none

mutual

/-- Reads one JSON value. -/
def readJsonVal : Nat → List Char → Option (Jvalue × List Char)
  | 0, _ => none
  | fuel + 1, cs =>
    match skipWs cs with
    | 'n' :: 'u' :: 'l' :: 'l' :: rest => some (Jvalue.null, rest)
    | 't' :: 'r' :: 'u' :: 'e' :: rest => some (Jvalue.bool true, rest)
    | 'f' :: 'a' :: 'l' :: 's' :: 'e' :: rest => some (Jvalue.bool false, rest)
    | '"' :: rest =>
      match readStringLit (fuel + 1) rest with
      | some (s, rest2) => some (Jvalue.str s, rest2)
      | none => none
    | '-' :: rest =>
      match readNatLit rest with
      | some (n, rest2) => some (Jvalue.num (-(n : Int)), rest2)
      | none => none
    | '[' :: rest =>
      (match skipWs rest with
       | ']' :: rest2 => some (Jvalue.arr [], rest2)
       | _ =>
         match readJsonElems fuel rest with
         | some (xs, rest2) =>
           match skipWs rest2 with
           | ']' :: rest3 => some (Jvalue.arr xs, rest3)
           | _ => none
         | none => none)
    | '{' :: rest =>
      (match skipWs rest with
       | '}' :: rest2 => some (Jvalue.obj [], rest2)
       | _ =>
         match readJsonFields fuel rest with
         | some (fs, rest2) =>
           match skipWs rest2 with
           | '}' :: rest3 => some (Jvalue.obj fs, rest3)
           | _ => none
         | none => none)
    | cs2 =>
      match readNatLit cs2 with
      | some (n, rest) => some (Jvalue.num (n : Int), rest)
      | none => none

/-- Reads a comma-separated sequence of array elements. -/
def readJsonElems : Nat → List Char → Option (List Jvalue × List Char)
  | 0, _ => none
  | fuel + 1, cs =>
    match readJsonVal fuel cs with
    | none => none
    | some (v, rest) =>
      match skipWs rest with
      | ',' :: rest2 =>
        match readJsonElems fuel rest2 with
        | some (vs, rest3) => some (v :: vs, rest3)
        | none => none
      | rest2 => some ([v], rest2)

/-- Reads a comma-separated sequence of object members. -/
def readJsonFields : Nat → List Char →
    Option (List (String × Jvalue) × List Char)
  | 0, _ => none
  | fuel + 1, cs =>
    match skipWs cs with
    | '"' :: rest =>
      match readStringLit (fuel + 1) rest with
      | none => none
      | some (k, rest2) =>
        match skipWs rest2 with
        | ':' :: rest3 =>
          match readJsonVal fuel rest3 with
          | none => none
          | some (v, rest4) =>
            match skipWs rest4 with
            | ',' :: rest5 =>
              match readJsonFields fuel rest5 with
              | some (fs, rest6) => some ((k, v) :: fs, rest6)
              | none => none
            | rest5 => some ([(k, v)], rest5)
        | _ => none
    | _ => none

end

/-- Models `JSON.parse(text)`: `none` exactly when the host call throws. -/
def jsParse (text : String) : Option Jvalue :=
  match readJsonVal (text.length + 1) text.data with
  | some (v, rest) => if skipWs rest = [] then some v else none
  | none => none

/-- The degraded payload object the listener builds for a frame that does
not parse as JSON (api.js lines 303-310). -/
def degradedFrame (raw : String) : Jvalue :=
  Jvalue.obj
    [("content", Jvalue.str raw),
     ("sender_id", Jvalue.null),
     ("created_at", Jvalue.null)]

/-- api.js message listener (lines 298-312): the value passed to
`callbacks.onMessage` for an inbound frame with text `frame`. -/
def messageListener (frame : String) : Jvalue :=
  match jsParse frame with
  | some v => v
  | none => degradedFrame frame

/-! ## Session state (chat.js module state, lines 11-17)

The mutable module variables that the conversation lifecycle touches:
`activeConversationId`, `messages`, `wsConnection` (recorded as the
conversation the current wrapper was opened for, `none` when null) and
the connection-status indicator driven by `updateConnectionStatus`. -/

/-- Connection-status values passed to `updateConnectionStatus`
(chat.js lines 320-340). -/
inductive ConnStatus where
  | connected
  | disconnected
  | reconnecting
deriving DecidableEq, Repr

/-- The chat.js module state relevant to the session lifecycle. -/
structure ChatState where
  activeConversationId : Option String
  messages : List Msg
  wsConv : Option String
  connStatus : ConnStatus
deriving DecidableEq, Repr

/-- The state before any conversation is opened. -/
def initialChatState : ChatState :=
  { activeConversationId := none, messages := [], wsConv := none,
    connStatus := ConnStatus.connected }

/-- chat.js `connectWebSocket` `onClose` handler (lines 310-312): calls
`updateConnectionStatus("disconnected")` and nothing else. -/
def onCloseHandler (s : ChatState) : ChatState :=
  { s with connStatus := ConnStatus.disconnected }

/-- chat.js `connectWebSocket` `onError` handler (lines 314-316): calls
`updateConnectionStatus("disconnected")` and nothing else. -/
def onErrorHandler (s : ChatState) : ChatState :=
  { s with connStatus := ConnStatus.disconnected }

/-! ## openConversation, run to completion with no interleaving
(chat.js lines 201-278)

The environment supplies the response of `Conversations.start` (the
`conversation_id` field, `none` for null/missing, `some ""` for an empty
string — both falsy in the source's `!activeConversationId` check) and
the history returned by `Conversations.messages`. -/

/-- Environment responses consumed by one `openConversation` call. -/
structure OpenEnv where
  startResp : Option String
  history : List Msg
deriving DecidableEq, Repr

/-- Whether the `conversation_id` from the start response is falsy
(null, missing, or the empty string). -/
def falsyId : Option String → Bool
  | none => true
  | some s => decide (s = "")

/-- Observable outcome of one uninterleaved `openConversation` call. -/
structure OpenOutcome where
  state : ChatState
  historyFetched : Bool
  channelOpened : Bool
  errorShown : Bool
deriving DecidableEq, Repr

/-- chat.js `openConversation` (lines 201-278) run to completion with no
concurrent invocation: close any existing wrapper (`wsConnection = null`),
clear `messages`, await the conversation start; if the returned
`conversation_id` is falsy, the thrown error is caught, a toast is shown
and neither the history fetch nor `connectWebSocket` runs; otherwise the
history is awaited, `messages` replaced with it verbatim and
`connectWebSocket(activeConversationId)` opens a channel for the current
id (which first sets the status to "reconnecting"). -/
def openConversationRun (env : OpenEnv) (s : ChatState) : OpenOutcome :=
  let s1 : ChatState := { s with wsConv := none, messages := [] }
  let s2 : ChatState := { s1 with activeConversationId := env.startResp }
  if falsyId env.startResp then
    { state := s2, historyFetched := false, channelOpened := false,
      errorShown := true }
  else
    let s3 : ChatState :=
      { s2 with messages := env.history,
                wsConv := s2.activeConversationId,
                connStatus := ConnStatus.reconnecting }
    { state := s3, historyFetched := true, channelOpened := true,
      errorShown := false }

/-! ## openConversation as atomic segments between await points

`openConversation` suspends at `await Conversations.start(...)` and at
`await Conversations.messages(...)`; everything between two suspensions
runs atomically on the event loop.  On the success path the call is the
sequence of three atomic actions below; a second invocation may run its
own actions at the suspension points of the first (spec.md section 5). -/

/-- One atomic segment of `openConversation`. -/
inductive Action where
  | prologue
  | setConv (cid : String)
  | applyHistory (hist : List Msg)
deriving DecidableEq, Repr

/-- Effect of one atomic segment on the module state.
`prologue` (lines 202-238): `wsConnection.close(); wsConnection = null;
messages = []`.  `setConv cid` (lines 243-258): `activeConversationId =
cid` and the history fetch for `cid` is issued.  `applyHistory hist`
(lines 260-265): `messages = hist; connectWebSocket(activeConversationId)`
— note the wrapper is opened for the *current* value of the global
`activeConversationId`, and `connectWebSocket` first sets the status to
"reconnecting". -/
def applyAction (s : ChatState) : Action → ChatState
  | Action.prologue => { s with wsConv := none, messages := [] }
  | Action.setConv cid => { s with activeConversationId := some cid }
  | Action.applyHistory hist =>
    { s with messages := hist, wsConv := s.activeConversationId,
             connStatus := ConnStatus.reconnecting }

/-- Running a schedule of atomic segments in order. -/
def runActions (s : ChatState) (l : List Action) : ChatState :=
  l.foldl applyAction s

/-- The atomic segments of one successful `openConversation` call whose
conversation lookup returns `cid` and whose history fetch returns `hist`,
in program order. -/
def openConvSteps (cid : String) (hist : List Msg) : List Action :=
  [Action.prologue, Action.setConv cid, Action.applyHistory hist]

/-- `Interleave xs ys zs`: `zs` is an order-preserving merge of the two
action sequences `xs` and `ys` — the schedules the single-threaded event
loop can produce for two concurrently pending `openConversation` calls. -/
inductive Interleave : List Action → List Action → List Action → Prop where
  | nil : Interleave [] [] []
  | left {x xs ys zs} : Interleave xs ys zs →
      Interleave (x :: xs) ys (x :: zs)
  | right {y xs ys zs} : Interleave xs ys zs →
      Interleave xs (y :: ys) (y :: zs)

/-- Number of adjacent pairs with different values (day-boundary count
among the non-initial positions); proof-side helper for relating the
rendered separators to the day sequence. -/
def changes : List Int → Nat
  | a :: b :: rest => (if a = b then 0 else 1) + changes (b :: rest)
  | _ => 0

/-- The single history message of conversation A in the C1 interleaving
scenario. -/
def staleMsgA : Msg :=
  { id := "a1", conversation_id := some "conv-A",
    sender_id := some "friend-A", content := some "hello from A",
    created_at := some "2024-01-01T10:00:00Z" }

/-- C1 schedule: A's prologue; all of B; then A's two stale
continuations. -/
def staleSchedule : List Action :=
  [Action.prologue, Action.prologue, Action.setConv "conv-B",
   Action.applyHistory [], Action.setConv "conv-A",
   Action.applyHistory [staleMsgA]]

/-- Three messages whose local days are Jan 1, Jan 2, Jan 1 of 2024 — a
day sequence in which the same day recurs non-contiguously. -/
def dayCycleMsgs : List Msg :=
  [{ id := "m1", conversation_id := some "c", sender_id := some "u",
     content := some "x", created_at := some "2024-01-01T10:00:00Z" },
   { id := "m2", conversation_id := some "c", sender_id := some "u",
     content := some "y", created_at := some "2024-01-02T10:00:00Z" },
   { id := "m3", conversation_id := some "c", sender_id := some "u",
     content := some "z", created_at := some "2024-01-01T18:00:00Z" }]

/-- Two chronologically ordered messages on consecutive days. -/
def chronoMsgs : List Msg :=
  [{ id := "w1", conversation_id := some "c", sender_id := some "u",
     content := some "x", created_at := some "2024-01-01T10:00:00Z" },
   { id := "w2", conversation_id := some "c", sender_id := some "u",
     content := some "y", created_at := some "2024-01-02T09:00:00Z" }]

/-!
# Theorems

One theorem per claim of the specification review, with the supporting
lemmas they share.
-/

/-! ## Inbound event processing (claim C2) -/

/-- One `onMessage` step appends exactly the message `eventMsg` describes
(or nothing). -/
theorem onMessageStep_append (cid : String) (msgs : List Msg)
    (e : InboundEvent) :
    onMessageStep cid msgs e = msgs ++ (eventMsg cid e).toList := by
  rcases e with ⟨data, freshId, now⟩
  cases data with
  | none => simp [onMessageStep, eventMsg]
  | some d =>
    cases h : d.content with
    | none => simp [onMessageStep, eventMsg, h]
    | some c =>
      by_cases hc : c = "" <;> simp [onMessageStep, eventMsg, h, hc]

/-- An event contributes a message exactly when it has non-empty
content. -/
theorem eventMsg_isSome (cid : String) (e : InboundEvent) :
    (eventMsg cid e).isSome = hasContent e := by
  rcases e with ⟨data, freshId, now⟩
  cases data with
  | none => simp [eventMsg, hasContent]
  | some d =>
    cases h : d.content with
    | none => simp [eventMsg, hasContent, h]
    | some c =>
      by_cases hc : c = "" <;> simp [eventMsg, hasContent, h, hc]

/-- Folding `onMessage` over a sequence of events appends the contributed
messages in order. -/
theorem processEvents_eq (cid : String) (evs : List InboundEvent) :
    ∀ msgs, processEvents cid msgs evs =
      msgs ++ evs.filterMap (eventMsg cid) := by
  induction evs with
  | nil => intro msgs; simp [processEvents]
  | cons e evs ih =>
    intro msgs
    have step : processEvents cid msgs (e :: evs) =
        processEvents cid (onMessageStep cid msgs e) evs := rfl
    rw [step, ih, onMessageStep_append]
    cases h : eventMsg cid e with
    | none => simp [List.filterMap_cons, h]
    | some m => simp [List.filterMap_cons, h]

/-- The number of contributed messages is the number of events with
non-empty content. -/
theorem filterMap_eventMsg_length (cid : String) (evs : List InboundEvent) :
    (evs.filterMap (eventMsg cid)).length = evs.countP hasContent := by
  induction evs with
  | nil => simp
  | cons e evs ih =>
    cases h : eventMsg cid e with
    | none =>
      have hc : hasContent e = false := by
        have := eventMsg_isSome cid e
        rw [h] at this
        simpa using this.symm
      simp [List.filterMap_cons, h, List.countP_cons, hc, ih]
    | some m =>
      have hc : hasContent e = true := by
        have := eventMsg_isSome cid e
        rw [h] at this
        simpa using this.symm
      simp [List.filterMap_cons, h, List.countP_cons, hc, ih]

/-- C2: for every finite sequence of inbound channel events, each payload
with non-empty content is appended at the tail of `messages` as the new
message `eventMsg` describes (locally-generated id, the session's
conversation id, `created_at` defaulted to "now" when the payload omits
it), payloads with empty or missing content are dropped, and the length
after processing equals the length before plus the number of events with
non-empty content. -/
theorem claim_C2_inbound_events_appended (cid : String)
    (msgs : List Msg) (evs : List InboundEvent) :
    processEvents cid msgs evs = msgs ++ evs.filterMap (eventMsg cid) ∧
    (processEvents cid msgs evs).length =
      msgs.length + evs.countP hasContent := by
  refine ⟨processEvents_eq cid evs msgs, ?_⟩
  rw [processEvents_eq cid evs msgs, List.length_append,
    filterMap_eventMsg_length]

/-! ## Composer gate (claims C4, C7) -/

set_option maxRecDepth 20000 in
/-- C4: composer submit first trims the raw draft, then no-ops (nothing
sent, draft and messages untouched) exactly when the trimmed result is
empty, exceeds 500 characters, or no channel wrapper is set; a
501-character submission sends nothing and changes nothing, a
500-character submission is sent. -/
theorem claim_C4_composer_gate :
    (∀ (ws : Bool) (draft : String) (msgs : List Msg),
      sendMessage ws draft msgs =
        if ws = true ∧ jsTrim draft ≠ "" ∧
            (jsTrim draft).length ≤ MAX_MESSAGE_LENGTH
        then ⟨some (jsTrim draft), "", msgs⟩
        else ⟨none, draft, msgs⟩) ∧
    sendMessage true (String.mk (List.replicate 501 'a')) [] =
      ⟨none, String.mk (List.replicate 501 'a'), []⟩ ∧
    sendMessage true (String.mk (List.replicate 500 'a')) [] =
      ⟨some (String.mk (List.replicate 500 'a')), "", []⟩ := by
  refine ⟨?_, by decide, by decide⟩
  intro ws draft msgs
  cases ws with
  | false => simp [sendMessage]
  | true =>
    by_cases h1 : jsTrim draft = ""
    · simp [sendMessage, h1]
    · by_cases h2 : (jsTrim draft).length > MAX_MESSAGE_LENGTH
      · have h3 : ¬(jsTrim draft).length ≤ MAX_MESSAGE_LENGTH := by omega
        simp [sendMessage, h1, h2, h3]
      · have h3 : (jsTrim draft).length ≤ MAX_MESSAGE_LENGTH := by omega
        simp [sendMessage, h1, h2, h3]

/-- C7: a composer submission never modifies the `messages` sequence —
it only hands the trimmed content to the channel and clears the draft on
a valid send; the sent message reaches `messages` only through the
inbound `onMessage` path (claim C2's append). -/
theorem claim_C7_send_never_appends :
    ∀ (ws : Bool) (draft : String) (msgs : List Msg),
      (sendMessage ws draft msgs).messages = msgs ∧
      (sendMessage ws draft msgs).draft =
        (if (sendMessage ws draft msgs).sentFrame = none then draft
         else "") ∧
      ((sendMessage ws draft msgs).sentFrame = none ∨
        (sendMessage ws draft msgs).sentFrame = some (jsTrim draft)) := by
  intro ws draft msgs
  cases ws with
  | false => simp [sendMessage]
  | true =>
    by_cases h1 : jsTrim draft = ""
    · simp [sendMessage, h1]
    · by_cases h2 : (jsTrim draft).length > MAX_MESSAGE_LENGTH
      · simp [sendMessage, h1, h2]
      · simp [sendMessage, h1, h2]

/-! ## Channel close/error events (claim C8) -/

/-- C8: a channel close or error event only moves the connection status
to `disconnected`; the message sequence, the active conversation id and
the channel binding are all left untouched, so later appends resume on
the same sequence. -/
theorem claim_C8_close_error_frame :
    ∀ s : ChatState,
      onCloseHandler s = { s with connStatus := ConnStatus.disconnected } ∧
      onErrorHandler s = { s with connStatus := ConnStatus.disconnected } ∧
      (onCloseHandler s).messages = s.messages ∧
      (onCloseHandler s).activeConversationId = s.activeConversationId ∧
      (onCloseHandler s).wsConv = s.wsConv ∧
      (onErrorHandler s).messages = s.messages ∧
      (onErrorHandler s).activeConversationId = s.activeConversationId ∧
      (onErrorHandler s).wsConv = s.wsConv := by
  intro s
  repeat constructor

/-! ## Malformed inbound frames (claim C5) -/

/-- C5: an inbound frame whose text fails to parse as JSON is not
discarded: the listener delivers the degraded object whose `content` is
the raw frame text and whose `sender_id` and `created_at` are null; in
particular the malformed frame "oops" yields exactly that object. -/
theorem claim_C5_malformed_frame_degraded :
    (∀ frame, jsParse frame = none →
      messageListener frame = degradedFrame frame) ∧
    messageListener "oops" = degradedFrame "oops" ∧
    degradedFrame "oops" =
      Jvalue.obj
        [("content", Jvalue.str "oops"), ("sender_id", Jvalue.null),
         ("created_at", Jvalue.null)] := by
  refine ⟨?_, ?_, rfl⟩
  · intro frame h
    simp [messageListener, h]
  · have h : jsParse "oops" = none := rfl
    simp [messageListener, h]

/-- Closed instance of C5 at the concrete frame "oops". -/
theorem claim_C5_witness :
    jsParse "oops" = none ∧ messageListener "oops" = degradedFrame "oops" :=
  ⟨rfl, claim_C5_malformed_frame_degraded.1 "oops" rfl⟩

/-! ## Missing conversation id (claim C6) -/

/-- C6: when the conversation-start response carries no (falsy)
conversation identifier, `openConversation` surfaces the lookup error and
stops: no history is fetched, no channel is opened, and the session is
left with no channel and an empty message list. -/
theorem claim_C6_missing_conversation_id (env : OpenEnv) (s : ChatState)
    (h : falsyId env.startResp = true) :
    (openConversationRun env s).errorShown = true ∧
    (openConversationRun env s).historyFetched = false ∧
    (openConversationRun env s).channelOpened = false ∧
    (openConversationRun env s).state.wsConv = none ∧
    (openConversationRun env s).state.messages = [] := by
  simp [openConversationRun, h]

/-- Closed instance of C6 for a start response with a null id. -/
theorem claim_C6_witness :
    falsyId (none : Option String) = true ∧
    (openConversationRun ⟨none, []⟩ initialChatState).errorShown = true ∧
    (openConversationRun ⟨none, []⟩ initialChatState).channelOpened
      = false :=
  ⟨rfl,
   (claim_C6_missing_conversation_id ⟨none, []⟩ initialChatState rfl).1,
   (claim_C6_missing_conversation_id ⟨none, []⟩
     initialChatState rfl).2.2.1⟩

/-! ## Conversation switching under a pending fetch (claim C1) -/

/-- C1 (refuting the claimed cancellation): `staleSchedule` is a valid
interleaving of `openConversation(A)` and `openConversation(B)`, yet the
final state has `activeConversationId = "conv-A"`, A's history as the
rendered messages, and the channel bound to conversation A — the source
applies the late-resolving results of A's fetch unconditionally, with no
identity check against the still-current conversation id. -/
theorem claim_C1_stale_fetch_overwrites :
    Interleave (openConvSteps "conv-A" [staleMsgA])
      (openConvSteps "conv-B" []) staleSchedule ∧
    (runActions initialChatState staleSchedule).activeConversationId =
      some "conv-A" ∧
    (runActions initialChatState staleSchedule).messages = [staleMsgA] ∧
    (runActions initialChatState staleSchedule).wsConv = some "conv-A" ∧
    staleMsgA.conversation_id = some "conv-A" ∧
    "conv-A" ≠ "conv-B" := by
  refine ⟨?_, by decide, by decide, by decide, by decide, by decide⟩
  exact Interleave.left (Interleave.right (Interleave.right
    (Interleave.right (Interleave.left (Interleave.left Interleave.nil)))))

/-! ## Friend list filtering (claim C9) -/

/-- `leadsWith pat l` holds exactly when `pat` is an initial segment of
`l`. -/
theorem leadsWith_iff (pat : List Char) :
    ∀ l, leadsWith pat l = true ↔ ∃ post, l = pat ++ post := by
  induction pat with
  | nil =>
    intro l
    simp [leadsWith]
  | cons a as ih =>
    intro l
    cases l with
    | nil => simp [leadsWith]
    | cons b bs =>
      simp only [leadsWith, Bool.and_eq_true, decide_eq_true_eq, ih bs,
        List.cons_append, List.cons.injEq]
      constructor
      · rintro ⟨rfl, post, rfl⟩
        exact ⟨post, rfl, rfl⟩
      · rintro ⟨post, rfl, rfl⟩
        exact ⟨rfl, post, rfl⟩

/-- `occursIn pat l` holds exactly when `pat` occurs contiguously in
`l`. -/
theorem occursIn_iff (pat : List Char) :
    ∀ l, occursIn pat l = true ↔ ∃ pre post, l = pre ++ pat ++ post := by
  intro l
  induction l with
  | nil =>
    simp only [occursIn, leadsWith_iff]
    constructor
    · rintro ⟨post, h⟩
      exact ⟨[], post, h⟩
    · rintro ⟨pre, post, h⟩
      rcases List.append_eq_nil.mp (List.append_eq_nil.mp h.symm).1 with
        ⟨hpre, hpat⟩
      exact ⟨post, by simp_all⟩
  | cons c l ih =>
    simp only [occursIn, Bool.or_eq_true, leadsWith_iff, ih]
    constructor
    · rintro (⟨post, h⟩ | ⟨pre, post, h⟩)
      · exact ⟨[], post, by simpa using h⟩
      · exact ⟨c :: pre, post, by simp [h]⟩
    · rintro ⟨pre, post, h⟩
      cases pre with
      | nil => exact Or.inl ⟨post, by simpa using h⟩
      | cons p pre' =>
        rcases List.cons.injEq .. ▸ h with ⟨rfl, h2⟩
        exact Or.inr ⟨pre', post, h2⟩

/-- C9: an empty query leaves the friend list untouched; a non-empty
query keeps exactly the friends whose lowercased username or display name
contains the lowercased query as a contiguous substring, and the result
is always a sublist of the original (relative order preserved). -/
theorem claim_C9_friend_filter :
    ∀ (friends : List FriendInfo) (q : String),
      filterFriends friends "" = friends ∧
      (filterFriends friends q).Sublist friends ∧
      (q ≠ "" → ∀ f, f ∈ filterFriends friends q ↔
        f ∈ friends ∧
          ((∃ pre post, (toLowerStr (f.username.getD "")).data =
              pre ++ (toLowerStr q).data ++ post) ∨
           (∃ pre post, (toLowerStr (f.display_name.getD "")).data =
              pre ++ (toLowerStr q).data ++ post))) := by
  intro friends q
  refine ⟨by simp [filterFriends], ?_, ?_⟩
  · by_cases hq : q = ""
    · simp [filterFriends, hq]
    · rw [filterFriends, if_neg hq]
      exact List.filter_sublist _
  · intro hq f
    rw [filterFriends, if_neg hq, List.mem_filter, friendMatches,
      containsSub, containsSub, Bool.or_eq_true, occursIn_iff,
      occursIn_iff]

/-- Closed instance of C9: the query "LIC" (matching case-insensitively
inside "Alice") keeps the single friend. -/
theorem claim_C9_witness :
    ("LIC" : String) ≠ "" ∧
    ∀ f, f ∈ filterFriends
        [{ friend_id := "f1", username := some "Alice",
           display_name := none }] "LIC" ↔
      f ∈ [({ friend_id := "f1", username := some "Alice",
              display_name := none } : FriendInfo)] ∧
        ((∃ pre post, (toLowerStr (f.username.getD "")).data =
            pre ++ (toLowerStr "LIC").data ++ post) ∨
         (∃ pre post, (toLowerStr (f.display_name.getD "")).data =
            pre ++ (toLowerStr "LIC").data ++ post)) :=
  ⟨by decide,
   (claim_C9_friend_filter
     [{ friend_id := "f1", username := some "Alice",
        display_name := none }] "LIC").2.2 (by decide)⟩

/-! ## Timestamp handling during rendering (claim C10) -/

/-- C10 as stated is false: `isDifferentDay` has no invalid-date guard,
so a non-empty unparseable timestamp next to a validly dated message
compares as a different day ("Invalid Date" vs the real day string) and
the unparseable message does start a date separator even though it is not
the first message. -/
theorem claim_C10_counterexample :
    jsParseDateTime "garbage" = none ∧
    isDifferentDay (some "2024-01-01T10:00:00Z") (some "garbage") = true ∧
    separatorFlags
      [{ id := "h1", conversation_id := some "c", sender_id := some "u",
         content := some "x", created_at := some "2024-01-01T10:00:00Z" },
       { id := "h2", conversation_id := some "c", sender_id := some "u",
         content := some "y", created_at := some "garbage" }] =
      [true, true] := by
  decide

/-- C10 (amended): rendering never throws; `formatTime` and `formatDate`
return the empty string for a missing, empty or unparseable timestamp;
`isDifferentDay` returns false when either timestamp is missing or empty
and when both are non-empty but unparseable — but two non-empty
timestamps of which exactly one is unparseable compare as different days,
so such a message can start a (blank-labelled) separator. -/
theorem claim_C10_amended (s u : String) (today : Int) (t : Option String)
    (hs : jsParseDateTime s = none) (hu : jsParseDateTime u = none) :
    formatTime none = "" ∧ formatTime (some s) = "" ∧
    formatDate today none = "" ∧ formatDate today (some s) = "" ∧
    isDifferentDay none t = false ∧ isDifferentDay t none = false ∧
    isDifferentDay (some "") t = false ∧
    isDifferentDay t (some "") = false ∧
    isDifferentDay (some s) (some u) = false := by
  refine ⟨rfl, ?_, rfl, ?_, ?_, ?_, ?_, ?_, ?_⟩
  · by_cases h0 : s = "" <;> simp [formatTime, h0, hs]
  · by_cases h0 : s = "" <;> simp [formatDate, h0, hs]
  · cases t <;> simp [isDifferentDay]
  · cases t <;> simp [isDifferentDay]
  · cases t <;> simp [isDifferentDay]
  · cases t <;> simp [isDifferentDay]
  · by_cases h1 : s = ""
    · simp [isDifferentDay, h1]
    · by_cases h2 : u = ""
      · simp [isDifferentDay, h2]
      · simp [isDifferentDay, h1, h2, toDateStringM, jsDateParse, hs, hu]

/-- Closed instance of C10 (amended) at two concrete unparseable
timestamps. -/
theorem claim_C10_witness :
    jsParseDateTime "garbage" = none ∧
    formatTime (some "garbage") = "" ∧
    isDifferentDay (some "garbage") (some "junk") = false := by
  have h := claim_C10_amended "garbage" "junk" 0 none (by decide) (by decide)
  exact ⟨by decide, h.2.1, h.2.2.2.2.2.2.2.2⟩

/-! ## Date separators versus distinct days (claim C3) -/

/-- C3 as stated is false: a sequence whose calendar days are
Jan 1, Jan 2, Jan 1 renders three separators (one per day boundary) while
only two distinct local days are represented. -/
theorem claim_C3_counterexample :
    countSeparators dayCycleMsgs = 3 ∧
    (dayCycleMsgs.filterMap msgDay).length = 3 ∧
    (dayCycleMsgs.filterMap msgDay).dedup.length = 2 := by
  decide

/-- For messages whose timestamps parse, `isDifferentDay` is exactly
day-code inequality. -/
theorem isDifferentDay_of_days {m1 m2 : Msg} {d1 d2 : Int}
    (h1 : msgDay m1 = some d1) (h2 : msgDay m2 = some d2) :
    isDifferentDay m1.created_at m2.created_at = decide (d1 ≠ d2) := by
  cases hm1 : m1.created_at with
  | none => simp [msgDay, hm1] at h1
  | some s1 =>
    cases hm2 : m2.created_at with
    | none => simp [msgDay, hm2] at h2
    | some s2 =>
      simp only [msgDay, hm1] at h1
      simp only [msgDay, hm2] at h2
      have hs1 : s1 ≠ "" := by
        rintro rfl
        rw [show jsDateParse "" = none from rfl] at h1
        exact Option.noConfusion h1
      have hs2 : s2 ≠ "" := by
        rintro rfl
        rw [show jsDateParse "" = none from rfl] at h2
        exact Option.noConfusion h2
      simp [isDifferentDay, hs1, hs2, toDateStringM, h1, h2,
        DateString.localDay.injEq]

/-- Unfolding equation for `changes` on two or more entries. -/
theorem changes_cons_cons (a b : Int) (l : List Int) :
    changes (a :: b :: l) = (if a = b then 0 else 1) + changes (b :: l) :=
  rfl

/-- The separator flags after the first message count exactly the
adjacent day changes, provided every timestamp parses. -/
theorem count_tail_changes :
    ∀ (rest : List Msg) (prev : Msg) (dp : Int),
      msgDay prev = some dp → (∀ m ∈ rest, (msgDay m).isSome) →
      (separatorFlagsTail prev rest).count true =
        changes (dp :: rest.filterMap msgDay) := by
  intro rest
  induction rest with
  | nil => intro prev dp _ _; rfl
  | cons m rest ih =>
    intro prev dp hdp hval
    obtain ⟨dm, hdm⟩ :=
      Option.isSome_iff_exists.mp (hval m (by simp))
    rw [separatorFlagsTail, List.count_cons,
      isDifferentDay_of_days hdp hdm,
      ih m dm hdm (fun x hx => hval x (by simp [hx])),
      List.filterMap_cons, hdm]
    rw [changes_cons_cons]
    by_cases h : dp = dm
    · simp [h]
    · simp [h]
      omega

/-- The total separator count is one plus the number of adjacent day
changes, provided every timestamp parses. -/
theorem countSeparators_valid (msgs : List Msg)
    (hval : ∀ m ∈ msgs, (msgDay m).isSome) (hne : msgs ≠ []) :
    countSeparators msgs = 1 + changes (msgs.filterMap msgDay) := by
  cases msgs with
  | nil => exact absurd rfl hne
  | cons m rest =>
    obtain ⟨dm, hdm⟩ :=
      Option.isSome_iff_exists.mp (hval m (by simp))
    rw [countSeparators, separatorFlags, List.count_cons,
      count_tail_changes rest m dm hdm
        (fun x hx => hval x (by simp [hx])),
      List.filterMap_cons, hdm]
    simp [Nat.add_comm]

/-- On a sorted day sequence, one plus the number of adjacent changes is
the number of distinct values. -/
theorem sorted_changes_dedup :
    ∀ l : List Int, List.Sorted (· ≤ ·) l → l ≠ [] →
      1 + changes l = l.dedup.length := by
  intro l
  induction l with
  | nil => intro _ h; exact absurd rfl h
  | cons a l ih =>
    intro hs _
    cases l with
    | nil => simp [changes]
    | cons b rest =>
      have hab : a ≤ b := (List.sorted_cons.mp hs).1 b (by simp)
      have hs' : List.Sorted (· ≤ ·) (b :: rest) :=
        (List.sorted_cons.mp hs).2
      have ihr := ih hs' (by simp)
      by_cases h : a = b
      · rw [changes_cons_cons, if_pos h,
          List.dedup_cons_of_mem (by simp [h])]
        omega
      · have hnotmem : a ∉ b :: rest := by
          intro hmem
          rcases List.mem_cons.mp hmem with h1 | h2
          · exact h h1
          · exact h (le_antisymm hab ((List.sorted_cons.mp hs').1 a h2))
        rw [changes_cons_cons, if_neg h,
          List.dedup_cons_of_not_mem hnotmem, List.length_cons]
        omega

/-- C3 (amended): a separator is rendered before the first message and
before exactly those messages whose (parsed) local day differs from the
preceding message's day; the number of separators equals the number of
distinct local calendar days provided every timestamp parses and
same-day messages are contiguous (here: the day sequence is sorted, as
for chronologically ordered history).  Without that proviso the count is
the number of day boundaries, not of distinct days
(see the counterexample). -/
theorem claim_C3_amended :
    (∀ (p m : Msg) (dp dm : Int),
      msgDay p = some dp → msgDay m = some dm →
      isDifferentDay p.created_at m.created_at = decide (dp ≠ dm)) ∧
    (∀ msgs : List Msg, (∀ m ∈ msgs, (msgDay m).isSome) →
      List.Sorted (· ≤ ·) (msgs.filterMap msgDay) → msgs ≠ [] →
      countSeparators msgs = (msgs.filterMap msgDay).dedup.length) := by
  constructor
  · exact fun p m dp dm h1 h2 => isDifferentDay_of_days h1 h2
  · intro msgs hval hsort hne
    rw [countSeparators_valid msgs hval hne]
    apply sorted_changes_dedup _ hsort
    cases msgs with
    | nil => exact absurd rfl hne
    | cons m rest =>
      obtain ⟨dm, hdm⟩ :=
        Option.isSome_iff_exists.mp (hval m (by simp))
      simp [List.filterMap_cons, hdm]

/-- Closed instance of C3 (amended) on a two-day chronological
sequence. -/
theorem claim_C3_witness :
    isDifferentDay (some "2024-01-01T10:00:00Z")
      (some "2024-01-02T09:00:00Z") = true ∧
    countSeparators chronoMsgs =
      (chronoMsgs.filterMap msgDay).dedup.length :=
  ⟨by
    have h := claim_C3_amended.1
      { id := "w1", conversation_id := some "c", sender_id := some "u",
        content := some "x", created_at := some "2024-01-01T10:00:00Z" }
      { id := "w2", conversation_id := some "c", sender_id := some "u",
        content := some "y", created_at := some "2024-01-02T09:00:00Z" }
      19723 19724 (by decide) (by decide)
    simpa using h,
   claim_C3_amended.2 chronoMsgs (by decide) (by decide) (by decide)⟩

end GigaChat
